import Mathlib

/-!
Verification of the Agentarium interaction registry and checkpoint store.

This file gives a shallow embedding of `agentarium/AgentInteractionManager.py`
and `agentarium/Interaction.py`:

* a Python `dict` keyed by strings is modelled as an association list in
  which an assignment `d[k] = v` replaces the first entry with key `k`
  (or appends a fresh entry when the key is absent), and membership /
  lookup inspect the first matching entry;
* an in-place `list.append` on `d[k]` is modelled by `privAppend`, which
  also reports whether the key was present (Python raises `KeyError`
  when it is not);
* the mutating methods of `AgentInteractionManager` become functions from
  manager state to manager state; `record_interaction` returns the state
  reached at the point of return or raise, together with `some message`
  when the Python code would raise (`ValueError` or `KeyError`) and
  `none` on normal return.  Mutations performed before a raise are kept
  in the returned state, exactly as in Python.

The checkpoint manager (`CheckpointManager.py`) is not part of the
sources available here; it is modelled from the specification further
below, with the file system made explicit.
-/

set_option maxHeartbeats 1000000

namespace Agentarium

/-- An agent, reduced to the fields the interaction manager reads: its
unique identifier `agent_id` plus a `name` standing for the rest of the
object, so that two distinct registrations sharing an identifier can be
told apart. -/
structure Agent where
  agent_id : String
  name : String
deriving DecidableEq

/-- The two interaction dataclasses of `Interaction.py`:
`OneToOneInteraction(sender, receiver, message)` and
`OneToManyInteraction(sender, receivers, message)`. -/
inductive Interaction where
  | oneToOne (sender : Agent) (receiver : Agent) (message : String)
  | oneToMany (sender : Agent) (receivers : List Agent) (message : String)
deriving DecidableEq

/-- Lookup in a string-keyed Python dict: the first entry with the given
key, if any (`d.get(k)` / `d[k]`). -/
def dictGet {α : Type} (k : String) : List (String × α) → Option α
  | [] => none
  | p :: rest => if p.1 = k then some p.2 else dictGet k rest

/-- Assignment `d[k] = v` in a Python dict: replace the value of the first
entry with key `k`, keeping its position; append a new entry when the key
is absent. -/
def dictInsert {α : Type} (k : String) (v : α) : List (String × α) → List (String × α)
  | [] => [(k, v)]
  | p :: rest => if p.1 = k then (k, v) :: rest else p :: dictInsert k v rest

/-- Key membership `k in d`. -/
def hasKey {α : Type} (k : String) (d : List (String × α)) : Bool :=
  (dictGet k d).isSome

/-- Lookup defaulting to the empty list (`d.get(k, [])`). -/
def dictGetD (k : String) (d : List (String × List Interaction)) : List Interaction :=
  (dictGet k d).getD []

/-- The in-place mutation `d[k].append(i)` on a dict of lists: append `i`
to the value of the first entry with key `k`.  The boolean reports whether
the key was present; on `false` the dict is returned unchanged and Python
would raise a `KeyError`. -/
def privAppend (k : String) (i : Interaction) :
    List (String × List Interaction) → List (String × List Interaction) × Bool
  | [] => ([], false)
  | p :: rest =>
    if p.1 = k then ((p.1, p.2 ++ [i]) :: rest, true)
    else
      let r := privAppend k i rest
      (p :: r.1, r.2)

/-- State of `AgentInteractionManager`: the fields `_agents`,
`_interactions` and `_agent_private_interactions`. -/
structure AgentInteractionManager where
  agents : List (String × Agent)
  interactions : List Interaction
  agent_private_interactions : List (String × List Interaction)
deriving DecidableEq

/-- The freshly initialized manager (`__init__` on first construction). -/
def AgentInteractionManager.init : AgentInteractionManager :=
  { agents := [], interactions := [], agent_private_interactions := [] }

/-- `register_agent(agent)`: store the agent under its identifier and
initialize an empty private log for it.  Total: registration always
succeeds. -/
def register_agent (m : AgentInteractionManager) (agent : Agent) : AgentInteractionManager :=
  { m with
    agents := dictInsert agent.agent_id agent m.agents,
    agent_private_interactions := dictInsert agent.agent_id [] m.agent_private_interactions }

/-- `reset_agent(agent)`: reset the agent's private log to the empty
list. -/
def reset_agent (m : AgentInteractionManager) (agent : Agent) : AgentInteractionManager :=
  { m with
    agent_private_interactions := dictInsert agent.agent_id [] m.agent_private_interactions }

/-- `get_agent(agent_id)`: `self._agents.get(agent_id)`. -/
def get_agent (m : AgentInteractionManager) (agent_id : String) : Option Agent :=
  dictGet agent_id m.agents

/-- `get_all_interactions()`: the global log. -/
def get_all_interactions (m : AgentInteractionManager) : List Interaction :=
  m.interactions

/-- `get_agent_interactions(agent)`:
`self._agent_private_interactions.get(agent.agent_id, [])`. -/
def get_agent_interactions (m : AgentInteractionManager) (agent : Agent) : List Interaction :=
  (dictGet agent.agent_id m.agent_private_interactions).getD []

/-- `_record_one_to_one_interaction(sender, receiver, message)`.  Checks
the receiver, then appends to the global log, the sender's private log,
and (when the identifiers differ) the receiver's private log, in that
order.  The `Option String` is the raised error, `none` on success. -/
def record_one_to_one_interaction (m : AgentInteractionManager)
    (sender receiver : Agent) (message : String) :
    AgentInteractionManager × Option String :=
  if !hasKey receiver.agent_id m.agents then
    (m, some ("Receiver agent " ++ receiver.agent_id ++ " not registered in the interaction manager."))
  else
    let interaction := Interaction.oneToOne sender receiver message
    let m1 : AgentInteractionManager := { m with interactions := m.interactions ++ [interaction] }
    let r1 := privAppend sender.agent_id interaction m1.agent_private_interactions
    let m2 : AgentInteractionManager := { m1 with agent_private_interactions := r1.1 }
    if !r1.2 then (m2, some ("KeyError: " ++ sender.agent_id))
    else if receiver.agent_id = sender.agent_id then (m2, none)
    else
      let r2 := privAppend receiver.agent_id interaction m2.agent_private_interactions
      let m3 : AgentInteractionManager := { m2 with agent_private_interactions := r2.1 }
      if !r2.2 then (m3, some ("KeyError: " ++ receiver.agent_id))
      else (m3, none)

/-- The loop `for _receiver in receivers: if _receiver.agent_id !=
sender.agent_id: self._agent_private_interactions[_receiver.agent_id].append(interaction)`.
Occurrences whose identifier equals the sender's are skipped; every other
occurrence appends once (duplicates are NOT deduplicated). -/
def appendToReceivers (senderId : String) (i : Interaction) :
    List Agent → List (String × List Interaction) →
    List (String × List Interaction) × Option String
  | [], d => (d, none)
  | r :: rest, d =>
    if r.agent_id = senderId then appendToReceivers senderId i rest d
    else
      let a := privAppend r.agent_id i d
      if !a.2 then (a.1, some ("KeyError: " ++ r.agent_id))
      else appendToReceivers senderId i rest a.1

/-- `_record_one_to_many_interaction(sender, receivers, message)`.  Checks
all receivers up front, then appends to the global log, the sender's
private log, and each non-sender receiver occurrence's private log. -/
def record_one_to_many_interaction (m : AgentInteractionManager)
    (sender : Agent) (receivers : List Agent) (message : String) :
    AgentInteractionManager × Option String :=
  if receivers.any (fun r => !hasKey r.agent_id m.agents) then
    (m, some "Receiver agent(s) not registered in the interaction manager.")
  else
    let interaction := Interaction.oneToMany sender receivers message
    let m1 : AgentInteractionManager := { m with interactions := m.interactions ++ [interaction] }
    let r1 := privAppend sender.agent_id interaction m1.agent_private_interactions
    let m2 : AgentInteractionManager := { m1 with agent_private_interactions := r1.1 }
    if !r1.2 then (m2, some ("KeyError: " ++ sender.agent_id))
    else
      let r2 := appendToReceivers sender.agent_id interaction receivers m2.agent_private_interactions
      ({ m2 with agent_private_interactions := r2.1 }, r2.2)

/-- The `Agent | list[Agent]` union type of `record_interaction`'s
`receiver` parameter. -/
inductive Target where
  | one (receiver : Agent)
  | many (receivers : List Agent)
deriving DecidableEq

/-- `record_interaction(sender, receiver, message)`: check the sender,
then dispatch on whether `receiver` is a list. -/
def record_interaction (m : AgentInteractionManager)
    (sender : Agent) (receiver : Target) (message : String) :
    AgentInteractionManager × Option String :=
  if !hasKey sender.agent_id m.agents then
    (m, some ("Sender agent " ++ sender.agent_id ++ " is not registered in the interaction manager."))
  else
    match receiver with
    | Target.many rs => record_one_to_many_interaction m sender rs message
    | Target.one r => record_one_to_one_interaction m sender r message

/-- The identifier `k` is registered in manager `m`
(`k in self._agents`). -/
def registered (m : AgentInteractionManager) (k : String) : Bool :=
  hasKey k m.agents

/-- Every registered identifier owns a private-log entry.  This holds in
every state reachable through the public interface (`register_agent`
creates both entries together and nothing removes them) and rules out the
`KeyError` branches. -/
def wf (m : AgentInteractionManager) : Bool :=
  m.agents.all (fun p => hasKey p.1 m.agent_private_interactions)

/-- All participants of a call are registered: the sender, and the
receiver (or every receiver in the list). -/
def targetRegistered (m : AgentInteractionManager) : Target → Bool
  | Target.one r => hasKey r.agent_id m.agents
  | Target.many rs => !(rs.any (fun r => !hasKey r.agent_id m.agents))

/-- Sender and all receivers registered. -/
def participantsRegistered (m : AgentInteractionManager) (sender : Agent) (t : Target) : Bool :=
  registered m sender.agent_id && targetRegistered m t

/-- The interaction record a successful `record_interaction` call
constructs. -/
def mkRecord (sender : Agent) (t : Target) (message : String) : Interaction :=
  match t with
  | Target.one r => Interaction.oneToOne sender r message
  | Target.many rs => Interaction.oneToMany sender rs message

/-- How many times one `record_interaction` call appends its record to the
private log of identifier `k`: once for the sender, and once per
occurrence of a non-sender receiver with identifier `k`. -/
def recordMultiplicity (sender : Agent) (t : Target) (k : String) : Nat :=
  match t with
  | Target.one r => if k = sender.agent_id ∨ k = r.agent_id then 1 else 0
  | Target.many rs => if k = sender.agent_id then 1 else (rs.map (fun r => r.agent_id)).count k

/-- Identifier `k` participates in a record, as sender or receiver. -/
def participatesB (k : String) : Interaction → Bool
  | Interaction.oneToOne s r _ => decide (k = s.agent_id) || decide (k = r.agent_id)
  | Interaction.oneToMany s rs _ => decide (k = s.agent_id) || decide (k ∈ rs.map (fun r => r.agent_id))

/-- One `record_interaction` call, as data. -/
structure Call where
  sender : Agent
  target : Target
  message : String
deriving DecidableEq

/-- The record a call constructs. -/
def Call.record (c : Call) : Interaction :=
  mkRecord c.sender c.target c.message

/-- Run a sequence of `record_interaction` calls, keeping the state each
call returns (or leaves behind on a raise). -/
def runCalls (m : AgentInteractionManager) : List Call → AgentInteractionManager
  | [] => m
  | c :: cs => runCalls (record_interaction m c.sender c.target c.message).1 cs

/-- A call's participants are registered in `m`. -/
def callOk (m : AgentInteractionManager) (c : Call) : Bool :=
  participantsRegistered m c.sender c.target

/-- The call's receiver list mentions no identifier twice (trivially true
for a one-to-one call). -/
def callReceiversNodup (c : Call) : Bool :=
  match c.target with
  | Target.one _ => true
  | Target.many rs => decide ((rs.map (fun r => r.agent_id)).Nodup)

end Agentarium

namespace Agentarium

theorem dictGet_dictInsert_self {α : Type} (k : String) (v : α) (d : List (String × α)) :
    dictGet k (dictInsert k v d) = some v := by
  induction d with
  | nil => simp [dictGet, dictInsert]
  | cons p rest ih =>
    by_cases h : p.1 = k
    · simp [dictInsert, dictGet, h]
    · simp [dictInsert, dictGet, h, ih]

theorem dictGet_dictInsert_ne {α : Type} {x k : String} (v : α) (d : List (String × α))
    (h : x ≠ k) : dictGet x (dictInsert k v d) = dictGet x d := by
  induction d with
  | nil => simp [dictGet, dictInsert, Ne.symm h]
  | cons p rest ih =>
    by_cases hp : p.1 = k
    · simp [dictInsert, dictGet, hp, Ne.symm h, fun hx : p.1 = x => h (hx ▸ hp.symm ▸ rfl)]
    · simp [dictInsert, dictGet, hp, ih]

theorem privAppend_snd (k : String) (i : Interaction) (d : List (String × List Interaction)) :
    (privAppend k i d).2 = hasKey k d := by
  induction d with
  | nil => simp [privAppend, hasKey, dictGet]
  | cons p rest ih =>
    by_cases h : p.1 = k
    · simp [privAppend, hasKey, dictGet, h]
    · simp [privAppend, hasKey, dictGet, h] at ih ⊢
      exact ih

theorem dictGet_privAppend_self (k : String) (i : Interaction)
    (d : List (String × List Interaction)) :
    dictGet k (privAppend k i d).1 = Option.map (fun l => l ++ [i]) (dictGet k d) := by
  induction d with
  | nil => simp [privAppend, dictGet]
  | cons p rest ih =>
    by_cases h : p.1 = k
    · simp [privAppend, dictGet, h]
    · simp [privAppend, dictGet, h, ih]

theorem dictGet_privAppend_ne {x k : String} (i : Interaction)
    (d : List (String × List Interaction)) (h : x ≠ k) :
    dictGet x (privAppend k i d).1 = dictGet x d := by
  induction d with
  | nil => simp [privAppend, dictGet]
  | cons p rest ih =>
    by_cases hp : p.1 = k
    · simp [privAppend, dictGet, hp, Ne.symm h]
    · simp [privAppend, dictGet, hp, ih]

theorem hasKey_privAppend (x k : String) (i : Interaction)
    (d : List (String × List Interaction)) :
    hasKey x (privAppend k i d).1 = hasKey x d := by
  by_cases h : x = k
  · subst h
    rw [hasKey, hasKey, dictGet_privAppend_self]
    cases dictGet x d <;> rfl
  · rw [hasKey, hasKey, dictGet_privAppend_ne i d h]

theorem dictGetD_privAppend_self (k : String) (i : Interaction)
    (d : List (String × List Interaction)) (hk : hasKey k d = true) :
    dictGetD k (privAppend k i d).1 = dictGetD k d ++ [i] := by
  rw [dictGetD, dictGetD, dictGet_privAppend_self]
  rw [hasKey] at hk
  cases h : dictGet k d
  · rw [h] at hk; simp at hk
  · simp

theorem dictGetD_privAppend_ne {x k : String} (i : Interaction)
    (d : List (String × List Interaction)) (h : x ≠ k) :
    dictGetD x (privAppend k i d).1 = dictGetD x d := by
  rw [dictGetD, dictGetD, dictGet_privAppend_ne i d h]

theorem dictGet_mem {α : Type} {k : String} {v : α} {d : List (String × α)}
    (h : dictGet k d = some v) : (k, v) ∈ d := by
  induction d with
  | nil => simp [dictGet] at h
  | cons p rest ih =>
    by_cases hp : p.1 = k
    · obtain ⟨k0, v0⟩ := p
      simp only at hp
      subst hp
      simp [dictGet] at h
      subst h
      exact List.mem_cons_self _ _
    · simp [dictGet, hp] at h
      exact List.mem_cons_of_mem _ (ih h)

theorem wf_hasKey {m : AgentInteractionManager} (hwf : wf m = true) {k : String}
    (hk : hasKey k m.agents = true) :
    hasKey k m.agent_private_interactions = true := by
  rw [wf, List.all_eq_true] at hwf
  rw [hasKey] at hk
  obtain ⟨a, ha⟩ : ∃ a, dictGet k m.agents = some a := by
    cases h : dictGet k m.agents
    · rw [h] at hk; simp at hk
    · exact ⟨_, rfl⟩
  simpa using hwf (k, a) (dictGet_mem ha)

end Agentarium

namespace Agentarium

theorem record_one_to_one_ok (m : AgentInteractionManager) (s r : Agent) (msg : String)
    (hr : hasKey r.agent_id m.agents = true)
    (hks : hasKey s.agent_id m.agent_private_interactions = true)
    (hkr : hasKey r.agent_id m.agent_private_interactions = true) :
    (record_one_to_one_interaction m s r msg).2 = none ∧
    (record_one_to_one_interaction m s r msg).1.agents = m.agents ∧
    (record_one_to_one_interaction m s r msg).1.interactions
      = m.interactions ++ [Interaction.oneToOne s r msg] ∧
    (∀ x, hasKey x (record_one_to_one_interaction m s r msg).1.agent_private_interactions
      = hasKey x m.agent_private_interactions) ∧
    (∀ x, dictGetD x (record_one_to_one_interaction m s r msg).1.agent_private_interactions
      = dictGetD x m.agent_private_interactions
        ++ (if x = s.agent_id ∨ x = r.agent_id then [Interaction.oneToOne s r msg] else [])) := by
  by_cases heq : r.agent_id = s.agent_id
  · have hrs : hasKey s.agent_id m.agents = true := heq ▸ hr
    have hE : record_one_to_one_interaction m s r msg =
        ({ agents := m.agents, interactions := m.interactions ++ [Interaction.oneToOne s r msg],
           agent_private_interactions :=
             (privAppend s.agent_id (Interaction.oneToOne s r msg)
               m.agent_private_interactions).1 }, none) := by
      simp [record_one_to_one_interaction, hr, hrs, privAppend_snd, hks, heq]
    rw [hE]
    refine ⟨rfl, rfl, rfl, fun x => hasKey_privAppend x s.agent_id _ _, fun x => ?_⟩
    by_cases hx : x = s.agent_id
    · subst hx
      rw [dictGetD_privAppend_self _ _ _ hks]
      simp
    · rw [dictGetD_privAppend_ne _ _ hx]
      simp [hx, heq]
  · have hkr2 : hasKey r.agent_id
        (privAppend s.agent_id (Interaction.oneToOne s r msg) m.agent_private_interactions).1
        = true := by
      rw [hasKey_privAppend]; exact hkr
    have hE : record_one_to_one_interaction m s r msg =
        ({ agents := m.agents, interactions := m.interactions ++ [Interaction.oneToOne s r msg],
           agent_private_interactions :=
             (privAppend r.agent_id (Interaction.oneToOne s r msg)
               (privAppend s.agent_id (Interaction.oneToOne s r msg)
                 m.agent_private_interactions).1).1 }, none) := by
      simp [record_one_to_one_interaction, hr, privAppend_snd, hks, heq, hasKey_privAppend, hkr]
    rw [hE]
    refine ⟨rfl, rfl, rfl, fun x => ?_, fun x => ?_⟩
    · rw [hasKey_privAppend, hasKey_privAppend]
    · by_cases hx : x = s.agent_id
      · subst hx
        rw [dictGetD_privAppend_ne _ _ (fun hc => heq hc.symm)]
        rw [dictGetD_privAppend_self _ _ _ hks]
        simp
      · by_cases hx2 : x = r.agent_id
        · subst hx2
          rw [dictGetD_privAppend_self _ _ _ hkr2, dictGetD_privAppend_ne _ _ hx]
          simp [hx]
        · rw [dictGetD_privAppend_ne _ _ hx2, dictGetD_privAppend_ne _ _ hx]
          simp [hx, hx2]

end Agentarium

namespace Agentarium

theorem appendToReceivers_ok (senderId : String) (i : Interaction) (rs : List Agent) :
    ∀ d : List (String × List Interaction),
    (∀ r ∈ rs, hasKey r.agent_id d = true) →
    (appendToReceivers senderId i rs d).2 = none ∧
    (∀ x, hasKey x (appendToReceivers senderId i rs d).1 = hasKey x d) ∧
    (∀ x, dictGetD x (appendToReceivers senderId i rs d).1
      = dictGetD x d
        ++ List.replicate
          (if x = senderId then 0 else (rs.map (fun r => r.agent_id)).count x) i) := by
  induction rs with
  | nil =>
    intro d _
    refine ⟨rfl, fun x => rfl, fun x => ?_⟩
    simp [appendToReceivers]
  | cons r rest ih =>
    intro d h
    by_cases hr : r.agent_id = senderId
    · have hE : appendToReceivers senderId i (r :: rest) d
          = appendToReceivers senderId i rest d := by
        simp [appendToReceivers, hr]
      obtain ⟨e1, e2, e3⟩ := ih d (fun r2 h2 => h r2 (List.mem_cons_of_mem _ h2))
      rw [hE]
      refine ⟨e1, e2, fun x => ?_⟩
      rw [e3 x]
      by_cases hx : x = senderId
      · simp [hx]
      · have : ¬ x = r.agent_id := fun hc => hx (hc.trans hr)
        simp [hx, List.count_cons, this, hr]
    · have hk : hasKey r.agent_id d = true := h r (List.mem_cons_self _ _)
      have hE : appendToReceivers senderId i (r :: rest) d
          = appendToReceivers senderId i rest (privAppend r.agent_id i d).1 := by
        simp [appendToReceivers, hr, privAppend_snd, hk]
      have hrest : ∀ r2 ∈ rest, hasKey r2.agent_id (privAppend r.agent_id i d).1 = true := by
        intro r2 h2
        rw [hasKey_privAppend]
        exact h r2 (List.mem_cons_of_mem _ h2)
      obtain ⟨e1, e2, e3⟩ := ih (privAppend r.agent_id i d).1 hrest
      rw [hE]
      refine ⟨e1, fun x => (e2 x).trans (hasKey_privAppend x _ _ _), fun x => ?_⟩
      rw [e3 x]
      by_cases hx : x = senderId
      · subst hx
        rw [dictGetD_privAppend_ne _ _ (fun hc => hr hc.symm)]
        simp
      · by_cases hx2 : x = r.agent_id
        · subst hx2
          rw [dictGetD_privAppend_self _ _ _ hk]
          rw [List.append_assoc]
          simp [hx, List.count_cons, List.replicate_succ]
        · rw [dictGetD_privAppend_ne _ _ hx2]
          simp [hx, hx2, List.count_cons]

end Agentarium

namespace Agentarium

theorem record_one_to_many_ok (m : AgentInteractionManager) (s : Agent) (rs : List Agent)
    (msg : String)
    (hall : ∀ r ∈ rs, hasKey r.agent_id m.agents = true)
    (hks : hasKey s.agent_id m.agent_private_interactions = true)
    (hkr : ∀ r ∈ rs, hasKey r.agent_id m.agent_private_interactions = true) :
    (record_one_to_many_interaction m s rs msg).2 = none ∧
    (record_one_to_many_interaction m s rs msg).1.agents = m.agents ∧
    (record_one_to_many_interaction m s rs msg).1.interactions
      = m.interactions ++ [Interaction.oneToMany s rs msg] ∧
    (∀ x, hasKey x (record_one_to_many_interaction m s rs msg).1.agent_private_interactions
      = hasKey x m.agent_private_interactions) ∧
    (∀ x, dictGetD x (record_one_to_many_interaction m s rs msg).1.agent_private_interactions
      = dictGetD x m.agent_private_interactions
        ++ List.replicate
          (if x = s.agent_id then 1 else (rs.map (fun r => r.agent_id)).count x)
          (Interaction.oneToMany s rs msg)) := by
  have hany : rs.any (fun r => !hasKey r.agent_id m.agents) = false := by
    rw [List.any_eq_false]
    intro r hrm
    simp [hall r hrm]
  have hE : record_one_to_many_interaction m s rs msg =
      ({ agents := m.agents,
         interactions := m.interactions ++ [Interaction.oneToMany s rs msg],
         agent_private_interactions :=
           (appendToReceivers s.agent_id (Interaction.oneToMany s rs msg) rs
             (privAppend s.agent_id (Interaction.oneToMany s rs msg)
               m.agent_private_interactions).1).1 },
       (appendToReceivers s.agent_id (Interaction.oneToMany s rs msg) rs
         (privAppend s.agent_id (Interaction.oneToMany s rs msg)
           m.agent_private_interactions).1).2) := by
    simp [record_one_to_many_interaction, hany, privAppend_snd, hks]
  have hd : ∀ r ∈ rs, hasKey r.agent_id
      (privAppend s.agent_id (Interaction.oneToMany s rs msg)
        m.agent_private_interactions).1 = true := by
    intro r hrm
    rw [hasKey_privAppend]
    exact hkr r hrm
  obtain ⟨e1, e2, e3⟩ := appendToReceivers_ok s.agent_id (Interaction.oneToMany s rs msg) rs _ hd
  rw [hE]
  refine ⟨e1, rfl, rfl, fun x => (e2 x).trans (hasKey_privAppend x _ _ _), fun x => ?_⟩
  rw [e3 x]
  by_cases hx : x = s.agent_id
  · subst hx
    rw [dictGetD_privAppend_self _ _ _ hks]
    simp [List.replicate_succ]
  · rw [dictGetD_privAppend_ne _ _ hx]
    simp [hx]

end Agentarium

namespace Agentarium

theorem record_interaction_ok (m : AgentInteractionManager) (s : Agent) (t : Target)
    (msg : String) (hwf : wf m = true) (hreg : participantsRegistered m s t = true) :
    (record_interaction m s t msg).2 = none ∧
    (record_interaction m s t msg).1.agents = m.agents ∧
    (record_interaction m s t msg).1.interactions = m.interactions ++ [mkRecord s t msg] ∧
    (∀ x, hasKey x (record_interaction m s t msg).1.agent_private_interactions
      = hasKey x m.agent_private_interactions) ∧
    (∀ x, dictGetD x (record_interaction m s t msg).1.agent_private_interactions
      = dictGetD x m.agent_private_interactions
        ++ List.replicate (recordMultiplicity s t x) (mkRecord s t msg)) := by
  rw [participantsRegistered, Bool.and_eq_true] at hreg
  have hs : hasKey s.agent_id m.agents = true := hreg.1
  cases t with
  | one r =>
    have hrt : hasKey r.agent_id m.agents = true := hreg.2
    have hE : record_interaction m s (Target.one r) msg
        = record_one_to_one_interaction m s r msg := by
      simp [record_interaction, hs]
    obtain ⟨e1, e2, e3, e4, e5⟩ :=
      record_one_to_one_ok m s r msg hrt (wf_hasKey hwf hs) (wf_hasKey hwf hrt)
    rw [hE]
    refine ⟨e1, e2, e3, e4, fun x => ?_⟩
    rw [e5 x]
    by_cases hp : x = s.agent_id ∨ x = r.agent_id
    · simp [recordMultiplicity, mkRecord, hp]
    · simp [recordMultiplicity, mkRecord, hp]
  | many rs =>
    have hrt : ∀ r2 ∈ rs, hasKey r2.agent_id m.agents = true := by
      have h2 := hreg.2
      rw [targetRegistered] at h2
      intro r2 hr2
      by_contra hc
      have hc2 : hasKey r2.agent_id m.agents = false := by
        cases h : hasKey r2.agent_id m.agents
        · rfl
        · exact absurd h hc
      have hany : rs.any (fun r => !hasKey r.agent_id m.agents) = true :=
        List.any_eq_true.mpr ⟨r2, hr2, by rw [hc2]; rfl⟩
      rw [hany] at h2
      simp at h2
    have hE : record_interaction m s (Target.many rs) msg
        = record_one_to_many_interaction m s rs msg := by
      simp [record_interaction, hs]
    obtain ⟨e1, e2, e3, e4, e5⟩ :=
      record_one_to_many_ok m s rs msg hrt (wf_hasKey hwf hs)
        (fun r2 h2 => wf_hasKey hwf (hrt r2 h2))
    rw [hE]
    exact ⟨e1, e2, e3, e4, fun x => e5 x⟩

theorem record_interaction_fail (m : AgentInteractionManager) (s : Agent) (t : Target)
    (msg : String) (hfail : participantsRegistered m s t = false) :
    (record_interaction m s t msg).1 = m ∧
    ((record_interaction m s t msg).2).isSome = true := by
  rw [participantsRegistered, Bool.and_eq_false_iff] at hfail
  cases hs : hasKey s.agent_id m.agents with
  | false => simp [record_interaction, hs]
  | true =>
    have ht : targetRegistered m t = false := by
      cases hfail with
      | inl h => rw [registered] at h; rw [hs] at h; cases h
      | inr h => exact h
    cases t with
    | one r =>
      rw [targetRegistered] at ht
      simp [record_interaction, record_one_to_one_interaction, hs, ht]
    | many rs =>
      rw [targetRegistered] at ht
      have ht2 : rs.any (fun r => !hasKey r.agent_id m.agents) = true := by
        cases h : rs.any (fun r => !hasKey r.agent_id m.agents)
        · rw [h] at ht; simp at ht
        · rfl
      simp [record_interaction, record_one_to_many_interaction, hs, ht2]

theorem wf_of_pointwise (m₂ m : AgentInteractionManager)
    (ha : m₂.agents = m.agents)
    (hk : ∀ x, hasKey x m₂.agent_private_interactions = hasKey x m.agent_private_interactions)
    (hwf : wf m = true) : wf m₂ = true := by
  rw [wf, List.all_eq_true] at hwf ⊢
  intro p hp
  rw [ha] at hp
  simpa [hk p.1] using hwf p hp

theorem participantsRegistered_congr (m₂ m : AgentInteractionManager) (s : Agent) (t : Target)
    (ha : m₂.agents = m.agents) :
    participantsRegistered m₂ s t = participantsRegistered m s t := by
  cases t <;> simp [participantsRegistered, registered, targetRegistered, hasKey, ha]

end Agentarium

namespace Agentarium

theorem replicate_recordMultiplicity (s : Agent) (t : Target) (msg : String) (x : String)
    (hnd : callReceiversNodup { sender := s, target := t, message := msg } = true) :
    List.replicate (recordMultiplicity s t x) (mkRecord s t msg)
      = (if participatesB x (mkRecord s t msg) = true then [mkRecord s t msg] else []) := by
  cases t with
  | one r =>
    by_cases hp : x = s.agent_id ∨ x = r.agent_id
    · simp [recordMultiplicity, mkRecord, participatesB, hp]
    · rw [not_or] at hp
      simp [recordMultiplicity, mkRecord, participatesB, hp.1, hp.2]
  | many rs =>
    by_cases hx : x = s.agent_id
    · simp [recordMultiplicity, mkRecord, participatesB, hx]
    · have hnd2 : (rs.map (fun r => r.agent_id)).Nodup := by
        simpa [callReceiversNodup] using hnd
      by_cases hm : x ∈ rs.map (fun r => r.agent_id)
      · have hc1 : (rs.map (fun r => r.agent_id)).count x = 1 :=
          List.count_eq_one_of_mem hnd2 hm
        simp [recordMultiplicity, mkRecord, participatesB, hx, hm, hc1]
      · have hc0 : (rs.map (fun r => r.agent_id)).count x = 0 :=
          List.count_eq_zero.mpr hm
        simp [recordMultiplicity, mkRecord, participatesB, hx, hm, hc0]

theorem runCalls_ok (cs : List Call) :
    ∀ m : AgentInteractionManager, wf m = true →
    (∀ c ∈ cs, callOk m c = true) → (∀ c ∈ cs, callReceiversNodup c = true) →
    (runCalls m cs).interactions = m.interactions ++ cs.map Call.record ∧
    (∀ x, dictGetD x (runCalls m cs).agent_private_interactions
      = dictGetD x m.agent_private_interactions
        ++ (cs.map Call.record).filter (fun i => participatesB x i)) := by
  induction cs with
  | nil =>
    intro m _ _ _
    exact ⟨by simp [runCalls], fun x => by simp [runCalls]⟩
  | cons c rest ih =>
    intro m hwf hok hnd
    have hc := hok c (List.mem_cons_self _ _)
    obtain ⟨e1, e2, e3, e4, e5⟩ := record_interaction_ok m c.sender c.target c.message hwf hc
    have hwf1 : wf (record_interaction m c.sender c.target c.message).1 = true :=
      wf_of_pointwise _ m e2 e4 hwf
    have hok1 : ∀ c2 ∈ rest, callOk (record_interaction m c.sender c.target c.message).1 c2 = true := by
      intro c2 h2
      rw [callOk, participantsRegistered_congr _ m _ _ e2]
      exact hok c2 (List.mem_cons_of_mem _ h2)
    obtain ⟨f1, f2⟩ := ih (record_interaction m c.sender c.target c.message).1 hwf1 hok1
      (fun c2 h2 => hnd c2 (List.mem_cons_of_mem _ h2))
    constructor
    · rw [runCalls, f1, e3]
      simp [Call.record]
    · intro x
      rw [runCalls, f2 x, e5 x]
      rw [replicate_recordMultiplicity c.sender c.target c.message x (hnd c (List.mem_cons_self _ _))]
      by_cases hp : participatesB x (mkRecord c.sender c.target c.message) = true
      · simp [Call.record, hp, List.filter_cons]
      · simp [Call.record, hp, List.filter_cons]

end Agentarium

namespace Agentarium

/-- Number of entries with key `k` in an association-list dict; a genuine
Python dict always has zero or one. -/
def countKey {α : Type} (k : String) (d : List (String × α)) : Nat :=
  (d.filter (fun p => decide (p.1 = k))).length

theorem countKey_eq_zero {α : Type} {k : String} {d : List (String × α)}
    (h : k ∉ d.map Prod.fst) : countKey k d = 0 := by
  induction d with
  | nil => rfl
  | cons p rest ih =>
    rw [List.map_cons, List.mem_cons, not_or] at h
    have h1 : ¬ p.1 = k := fun hc => h.1 hc.symm
    have h2 := ih h.2
    simpa [countKey, List.filter_cons, h1] using h2

theorem countKey_dictInsert_self {α : Type} (k : String) (v : α) (d : List (String × α))
    (hnd : (d.map Prod.fst).Nodup) : countKey k (dictInsert k v d) = 1 := by
  induction d with
  | nil => simp [dictInsert, countKey, List.filter_cons]
  | cons p rest ih =>
    rw [List.map_cons, List.nodup_cons] at hnd
    by_cases hp : p.1 = k
    · have h0 : countKey k rest = 0 := countKey_eq_zero (hp ▸ hnd.1)
      simpa [dictInsert, hp, countKey, List.filter_cons] using h0
    · have h1 := ih hnd.2
      simpa [dictInsert, hp, countKey, List.filter_cons] using h1

theorem mem_keys_dictInsert {α : Type} {x k : String} (v : α) (d : List (String × α))
    (h : x ∈ (dictInsert k v d).map Prod.fst) : x = k ∨ x ∈ d.map Prod.fst := by
  induction d with
  | nil => simpa [dictInsert] using h
  | cons p rest ih =>
    by_cases hp : p.1 = k
    · rw [dictInsert] at h
      simp only [hp, if_pos] at h
      rw [List.map_cons, List.mem_cons] at h
      cases h with
      | inl h => exact Or.inl h
      | inr h => exact Or.inr (by rw [List.map_cons, List.mem_cons]; exact Or.inr h)
    · rw [dictInsert] at h
      simp only [hp, if_neg, ite_false] at h
      rw [List.map_cons, List.mem_cons] at h
      cases h with
      | inl h => exact Or.inr (by rw [List.map_cons, List.mem_cons]; exact Or.inl h)
      | inr h =>
        cases ih h with
        | inl h2 => exact Or.inl h2
        | inr h2 => exact Or.inr (by rw [List.map_cons, List.mem_cons]; exact Or.inr h2)

theorem keys_dictInsert_nodup {α : Type} (k : String) (v : α) (d : List (String × α))
    (hnd : (d.map Prod.fst).Nodup) : ((dictInsert k v d).map Prod.fst).Nodup := by
  induction d with
  | nil => simp [dictInsert]
  | cons p rest ih =>
    rw [List.map_cons, List.nodup_cons] at hnd
    by_cases hp : p.1 = k
    · rw [dictInsert]
      simp only [hp, if_pos]
      rw [List.map_cons, List.nodup_cons]
      exact ⟨hp ▸ hnd.1, hnd.2⟩
    · rw [dictInsert]
      simp only [hp, if_neg, ite_false]
      rw [List.map_cons, List.nodup_cons]
      refine ⟨fun hmem => ?_, ih hnd.2⟩
      cases mem_keys_dictInsert v rest hmem with
      | inl h => exact hp h
      | inr h => exact hnd.1 h

end Agentarium

namespace Agentarium

/-- Modelled from the spec: the Action Record of the Checkpoint Store
(`CheckpointManager.py` is not among the available sources; only its tests
are).  Fields: zero-based `index`, the executed action's name, and an
opaque value-comparable payload. -/
structure ActionRecord where
  index : Nat
  actionName : String
  payload : String
deriving DecidableEq

/-- Modelled from the spec: the in-memory state of a Checkpoint Store
(`CheckpointManager`): its `name`, the ordered `recorded_actions` log, and
the next-index counter (`_action_idx` in the tests). -/
structure CheckpointManager where
  name : String
  recorded_actions : List ActionRecord
  action_idx : Nat
deriving DecidableEq

/-- Modelled from the spec and tests: the persisted file path is derived
deterministically from the store's name (`<name>.dill`). -/
def CheckpointManager.path (s : CheckpointManager) : String :=
  s.name ++ ".dill"

/-- Modelled from the spec: the serialized structure `save()` writes:
the ordered Action Records and the next-index counter. -/
structure SavedCheckpoint where
  recorded_actions : List ActionRecord
  action_idx : Nat
deriving DecidableEq

/-- Modelled from the spec: a fresh empty store bound to a name
(`recordedActions` empty, `nextIndex = 0`). -/
def freshCheckpointManager (name : String) : CheckpointManager :=
  { name := name, recorded_actions := [], action_idx := 0 }

/-- Modelled from the spec: `save()` serializes the store's logical state
to its file path, overwriting any existing file.  The file system is an
explicit mapping from paths to saved structures. -/
def checkpoint_save (fs : List (String × SavedCheckpoint)) (s : CheckpointManager) :
    List (String × SavedCheckpoint) :=
  dictInsert s.path { recorded_actions := s.recorded_actions, action_idx := s.action_idx } fs

/-- Modelled from the spec: `load()` reads the store's file path and
replaces the in-memory `recordedActions` and `nextIndex` with the
persisted content; it fails with `CheckpointNotFound` when the file does
not exist. -/
def checkpoint_load (fs : List (String × SavedCheckpoint)) (s : CheckpointManager) :
    Except String CheckpointManager :=
  match dictGet s.path fs with
  | none => Except.error "CheckpointNotFound"
  | some saved =>
    Except.ok { s with
      recorded_actions := saved.recorded_actions,
      action_idx := saved.action_idx }

/-- Concrete agents and manager used by the witnesses below. -/
def alice : Agent := { agent_id := "alice", name := "Alice" }

/-- A second registered agent for the witnesses. -/
def bob : Agent := { agent_id := "bob", name := "Bob" }

/-- An agent never registered in `demoManager`. -/
def charlie : Agent := { agent_id := "charlie", name := "Charlie" }

/-- A manager with `alice` and `bob` registered and no interactions yet. -/
def demoManager : AgentInteractionManager :=
  register_agent (register_agent AgentInteractionManager.init alice) bob

/-- `demoManager` after one recorded interaction from `alice` to `bob`. -/
def demoManagerWithHistory : AgentInteractionManager :=
  (record_interaction demoManager alice (Target.one bob) "Hello Bob!").1

/-- A call whose receiver list repeats the same registered receiver. -/
def dupCall : Call :=
  { sender := alice, target := Target.many [bob, bob], message := "hi" }

/-- The three one-to-one calls of the spec's concrete scenario. -/
def demoCalls : List Call :=
  [ { sender := alice, target := Target.one bob, message := "Hello Bob!" },
    { sender := bob, target := Target.one alice, message := "Hi Alice!" },
    { sender := alice, target := Target.one bob, message := "How are you?" } ]

end Agentarium

namespace Agentarium

theorem get_agent_interactions_eq (m : AgentInteractionManager) (a : Agent) :
    get_agent_interactions m a = dictGetD a.agent_id m.agent_private_interactions := rfl

theorem get_all_interactions_eq (m : AgentInteractionManager) :
    get_all_interactions m = m.interactions := rfl

/-- Claim C1: a `record_interaction` call whose sender or any receiver is
unregistered raises an error and leaves the manager state (hence the
global log and every private log) unchanged; when the sender and all
receivers are registered, no error is raised.  The hypothesis `wf m` is
the representation invariant every state reachable through the public
interface satisfies. -/
theorem record_interaction_atomic_failure (m : AgentInteractionManager) (sender : Agent)
    (t : Target) (message : String) (hwf : wf m = true) :
    (participantsRegistered m sender t = false →
      (record_interaction m sender t message).1 = m ∧
      ((record_interaction m sender t message).2).isSome = true ∧
      get_all_interactions (record_interaction m sender t message).1
        = get_all_interactions m ∧
      (∀ a : Agent, get_agent_interactions (record_interaction m sender t message).1 a
        = get_agent_interactions m a)) ∧
    (participantsRegistered m sender t = true →
      (record_interaction m sender t message).2 = none) := by
  constructor
  · intro h
    obtain ⟨h1, h2⟩ := record_interaction_fail m sender t message h
    exact ⟨h1, h2, by rw [h1], fun a => by rw [h1]⟩
  · intro h
    exact (record_interaction_ok m sender t message hwf h).1

theorem record_interaction_atomic_failure_witness :
    wf demoManager = true ∧
    participantsRegistered demoManager alice (Target.many [bob, charlie]) = false ∧
    (record_interaction demoManager alice (Target.many [bob, charlie]) "x").1 = demoManager :=
  ⟨by decide, by decide,
    ((record_interaction_atomic_failure demoManager alice (Target.many [bob, charlie]) "x"
      (by decide)).1 (by decide)).1⟩

/-- Claim C2 counterexample: with `alice` and `bob` registered, the single
successful call `record_interaction(alice, [bob, bob], "hi")` appends the
same record to `bob`'s private log twice — duplicate occurrences of a
receiver are NOT skipped, refuting the claim that no private log receives
the same record twice from a single call. -/
theorem duplicate_receiver_double_store :
    (record_interaction demoManager alice (Target.many [bob, bob]) "hi").2 = none ∧
    get_agent_interactions demoManager bob = [] ∧
    get_agent_interactions (record_interaction demoManager alice (Target.many [bob, bob]) "hi").1 bob
      = [Interaction.oneToMany alice [bob, bob] "hi",
         Interaction.oneToMany alice [bob, bob] "hi"] := by
  decide

/-- Claim C2 (amended): for a successful one-to-many `record_interaction`
call, the record is appended exactly once to the global log and exactly
once to the sender's private log; receivers equal to the sender are
skipped, but duplicate occurrences of a receiver are NOT skipped: every
agent's private log grows by one copy of the record per occurrence of its
identifier in the receiver list (once for the sender), so a private log
can receive the same record several times from a single call. -/
theorem one_to_many_append_counts (m : AgentInteractionManager) (sender : Agent)
    (receivers : List Agent) (message : String) (hwf : wf m = true)
    (hreg : participantsRegistered m sender (Target.many receivers) = true) :
    (record_interaction m sender (Target.many receivers) message).2 = none ∧
    get_all_interactions (record_interaction m sender (Target.many receivers) message).1
      = get_all_interactions m ++ [Interaction.oneToMany sender receivers message] ∧
    (∀ a : Agent,
      get_agent_interactions (record_interaction m sender (Target.many receivers) message).1 a
        = get_agent_interactions m a
          ++ List.replicate
            (if a.agent_id = sender.agent_id then 1
             else (receivers.map (fun r => r.agent_id)).count a.agent_id)
            (Interaction.oneToMany sender receivers message)) := by
  obtain ⟨e1, _, e3, _, e5⟩ := record_interaction_ok m sender (Target.many receivers) message hwf hreg
  exact ⟨e1, e3, fun a => e5 a.agent_id⟩

theorem one_to_many_append_counts_witness :
    wf demoManager = true ∧
    participantsRegistered demoManager alice (Target.many [bob, bob]) = true ∧
    get_agent_interactions (record_interaction demoManager alice (Target.many [bob, bob]) "hi").1 bob
      = get_agent_interactions demoManager bob
        ++ List.replicate
          (if bob.agent_id = alice.agent_id then 1
           else ([bob, bob].map (fun r => r.agent_id)).count bob.agent_id)
          (Interaction.oneToMany alice [bob, bob] "hi") :=
  ⟨by decide, by decide,
    (one_to_many_append_counts demoManager alice [bob, bob] "hi" (by decide) (by decide)).2.2 bob⟩

/-- Claim C4: a one-to-one self-interaction of a registered agent grows
that agent's private log by exactly one record and the global log by
exactly one record — no double storage. -/
theorem self_interaction_no_double_count (m : AgentInteractionManager) (A : Agent)
    (message : String) (hwf : wf m = true) (hA : registered m A.agent_id = true) :
    (record_interaction m A (Target.one A) message).2 = none ∧
    (get_agent_interactions (record_interaction m A (Target.one A) message).1 A).length
      = (get_agent_interactions m A).length + 1 ∧
    (get_all_interactions (record_interaction m A (Target.one A) message).1).length
      = (get_all_interactions m).length + 1 := by
  have hk : hasKey A.agent_id m.agents = true := hA
  have hreg : participantsRegistered m A (Target.one A) = true := by
    simp [participantsRegistered, targetRegistered, registered, hk]
  obtain ⟨e1, _, e3, _, e5⟩ := record_interaction_ok m A (Target.one A) message hwf hreg
  refine ⟨e1, ?_, ?_⟩
  · rw [get_agent_interactions_eq, get_agent_interactions_eq, e5 A.agent_id]
    simp [recordMultiplicity]
  · rw [get_all_interactions_eq, get_all_interactions_eq, e3]
    simp

theorem self_interaction_no_double_count_witness :
    wf demoManager = true ∧
    registered demoManager alice.agent_id = true ∧
    (get_agent_interactions (record_interaction demoManager alice (Target.one alice) "I should learn").1 alice).length
      = (get_agent_interactions demoManager alice).length + 1 :=
  ⟨by decide, by decide,
    (self_interaction_no_double_count demoManager alice "I should learn" (by decide) (by decide)).2.1⟩

end Agentarium

namespace Agentarium

/-- Claim C3 counterexample: after the single successful call
`record_interaction(alice, [bob, bob], "hi")`, `bob` participated in the
one record made, yet `get_agent_interactions(bob)` holds two entries, so
it is not the subset of the recorded records in which `bob` participated
(that subset has one element). -/
theorem duplicate_receiver_breaks_call_order :
    callOk demoManager dupCall = true ∧
    participatesB bob.agent_id dupCall.record = true ∧
    get_agent_interactions (runCalls demoManager [dupCall]) bob
      = [dupCall.record, dupCall.record] ∧
    [dupCall.record, dupCall.record] ≠ [dupCall.record] := by
  decide

/-- Claim C3 (amended): for any sequence of successful
`record_interaction` calls in which no single call lists the same
receiver identifier twice, `get_all_interactions` returns all records in
call order, and `get_agent_interactions(A)` returns exactly those records
in which `A` participated as sender or receiver, in call order.  (Without
the no-duplicate-receiver proviso a record can occur several times in a
receiver's private log, as the counterexample shows.) -/
theorem interactions_in_call_order (m : AgentInteractionManager) (cs : List Call) (A : Agent)
    (hwf : wf m = true) (hok : ∀ c ∈ cs, callOk m c = true)
    (hnd : ∀ c ∈ cs, callReceiversNodup c = true) :
    get_all_interactions (runCalls m cs) = get_all_interactions m ++ cs.map Call.record ∧
    get_agent_interactions (runCalls m cs) A
      = get_agent_interactions m A
        ++ (cs.map Call.record).filter (fun i => participatesB A.agent_id i) := by
  obtain ⟨f1, f2⟩ := runCalls_ok cs m hwf hok hnd
  exact ⟨f1, f2 A.agent_id⟩

theorem interactions_in_call_order_witness :
    wf demoManager = true ∧
    (∀ c ∈ demoCalls, callOk demoManager c = true) ∧
    get_agent_interactions (runCalls demoManager demoCalls) alice
      = get_agent_interactions demoManager alice
        ++ (demoCalls.map Call.record).filter (fun i => participatesB alice.agent_id i) :=
  ⟨by decide, by decide,
    (interactions_in_call_order demoManager demoCalls alice (by decide) (by decide) (by decide)).2⟩

/-- Claim C6: `register_agent` is a total function (it always succeeds),
and registering two agents sharing an identifier leaves exactly one entry
for that identifier in the agents mapping, holding the most recently
registered reference. -/
theorem register_agent_overwrite (m : AgentInteractionManager) (a b : Agent)
    (hid : b.agent_id = a.agent_id) (hnd : (m.agents.map Prod.fst).Nodup) :
    countKey a.agent_id (register_agent (register_agent m a) b).agents = 1 ∧
    get_agent (register_agent (register_agent m a) b) a.agent_id = some b := by
  constructor
  · rw [register_agent, register_agent]
    simp only [hid]
    exact countKey_dictInsert_self a.agent_id b _
      (keys_dictInsert_nodup a.agent_id a m.agents hnd)
  · rw [get_agent, register_agent, register_agent]
    simp only [hid]
    exact dictGet_dictInsert_self a.agent_id b _

theorem register_agent_overwrite_witness :
    ((AgentInteractionManager.init.agents.map Prod.fst).Nodup) ∧
    countKey alice.agent_id
      (register_agent (register_agent AgentInteractionManager.init alice)
        { agent_id := "alice", name := "Alice II" }).agents = 1 ∧
    get_agent (register_agent (register_agent AgentInteractionManager.init alice)
        { agent_id := "alice", name := "Alice II" }) alice.agent_id
      = some { agent_id := "alice", name := "Alice II" } :=
  ⟨by decide,
    (register_agent_overwrite AgentInteractionManager.init alice
      { agent_id := "alice", name := "Alice II" } (by decide) (by decide)).1,
    (register_agent_overwrite AgentInteractionManager.init alice
      { agent_id := "alice", name := "Alice II" } (by decide) (by decide)).2⟩

/-- Claim C7: `reset_agent(A)` empties `A`'s private log and changes
nothing else: the agents mapping, the global log, and every other agent's
private log are unchanged. -/
theorem reset_agent_frame (m : AgentInteractionManager) (A : Agent) :
    get_agent_interactions (reset_agent m A) A = [] ∧
    (reset_agent m A).agents = m.agents ∧
    get_all_interactions (reset_agent m A) = get_all_interactions m ∧
    (∀ b : Agent, b.agent_id ≠ A.agent_id →
      get_agent_interactions (reset_agent m A) b = get_agent_interactions m b) := by
  refine ⟨?_, rfl, rfl, fun b hb => ?_⟩
  · simp [get_agent_interactions, reset_agent, dictGet_dictInsert_self]
  · simp [get_agent_interactions, reset_agent, dictGet_dictInsert_ne _ _ hb]

theorem reset_agent_frame_witness :
    get_agent_interactions (reset_agent demoManagerWithHistory alice) alice = [] ∧
    get_agent_interactions (reset_agent demoManagerWithHistory alice) bob
      = get_agent_interactions demoManagerWithHistory bob :=
  ⟨(reset_agent_frame demoManagerWithHistory alice).1,
    (reset_agent_frame demoManagerWithHistory alice).2.2.2 bob (by decide)⟩

/-- Claim C8: the read accessors never raise.  `get_agent_interactions`
returns the stored private log when the agent has one and the empty list
when it has none; `get_agent` returns the stored agent for a known
identifier and `none` (an explicit not-found value) for an unknown one. -/
theorem lookups_never_fail (m : AgentInteractionManager) (a : Agent) :
    (hasKey a.agent_id m.agent_private_interactions = false →
      get_agent_interactions m a = []) ∧
    (∀ l, dictGet a.agent_id m.agent_private_interactions = some l →
      get_agent_interactions m a = l) ∧
    (hasKey a.agent_id m.agents = false → get_agent m a.agent_id = none) ∧
    (∀ ag, dictGet a.agent_id m.agents = some ag → get_agent m a.agent_id = some ag) := by
  refine ⟨fun h => ?_, fun l hl => ?_, fun h => ?_, fun ag hag => ?_⟩
  · rw [get_agent_interactions]
    rw [hasKey] at h
    cases hg : dictGet a.agent_id m.agent_private_interactions
    · rfl
    · rw [hg] at h; simp at h
  · rw [get_agent_interactions, hl]
    rfl
  · rw [get_agent]
    rw [hasKey] at h
    cases hg : dictGet a.agent_id m.agents
    · rfl
    · rw [hg] at h; simp at h
  · rw [get_agent, hag]

theorem lookups_never_fail_witness :
    get_agent_interactions demoManager charlie = [] ∧
    get_agent demoManager charlie.agent_id = none ∧
    get_agent demoManager alice.agent_id = some alice :=
  ⟨(lookups_never_fail demoManager charlie).1 (by decide),
    (lookups_never_fail demoManager charlie).2.2.1 (by decide),
    (lookups_never_fail demoManager alice).2.2.2 alice (by decide)⟩

end Agentarium

namespace Agentarium

/-- Claim C5: `save()` followed by constructing a fresh store bound to the
same name and calling `load()` restores `recordedActions` and the
next-index counter to the original store's values.  Stated for any second
store with the same name, which covers both the named-singleton case
(construction returns the live store) and a genuinely fresh store. -/
theorem checkpoint_save_load_roundtrip (fs : List (String × SavedCheckpoint))
    (s s2 : CheckpointManager) (h : s2.name = s.name) :
    checkpoint_load (checkpoint_save fs s) s2
      = Except.ok { name := s2.name,
                    recorded_actions := s.recorded_actions,
                    action_idx := s.action_idx } := by
  have hp : s2.path = s.path := by
    rw [CheckpointManager.path, CheckpointManager.path, h]
  simp [checkpoint_load, checkpoint_save, hp, dictGet_dictInsert_self]

/-- A store with two recorded actions, mirroring the checkpoint test. -/
def demoStore : CheckpointManager :=
  { name := "test_checkpoint",
    recorded_actions :=
      [ { index := 0, actionName := "talk", payload := "Hello Bob!" },
        { index := 1, actionName := "talk", payload := "Hi Alice!" } ],
    action_idx := 2 }

theorem checkpoint_save_load_roundtrip_witness :
    (freshCheckpointManager "test_checkpoint").name = demoStore.name ∧
    checkpoint_load (checkpoint_save [] demoStore) (freshCheckpointManager "test_checkpoint")
      = Except.ok { name := (freshCheckpointManager "test_checkpoint").name,
                    recorded_actions := demoStore.recorded_actions,
                    action_idx := demoStore.action_idx } :=
  ⟨by decide,
    checkpoint_save_load_roundtrip [] demoStore (freshCheckpointManager "test_checkpoint")
      (by decide)⟩

/-- Claim C9: a one-to-many call with a registered sender and an empty
receiver list raises no error: it appends exactly one record (with an
empty receivers collection) to the global log and to the sender's private
log, and leaves every other private log unchanged — the non-emptiness of
the receiver collection is never validated. -/
theorem empty_receiver_list_ok (m : AgentInteractionManager) (A : Agent) (message : String)
    (hwf : wf m = true) (hA : registered m A.agent_id = true) :
    (record_interaction m A (Target.many []) message).2 = none ∧
    get_all_interactions (record_interaction m A (Target.many []) message).1
      = get_all_interactions m ++ [Interaction.oneToMany A [] message] ∧
    get_agent_interactions (record_interaction m A (Target.many []) message).1 A
      = get_agent_interactions m A ++ [Interaction.oneToMany A [] message] ∧
    (∀ b : Agent, b.agent_id ≠ A.agent_id →
      get_agent_interactions (record_interaction m A (Target.many []) message).1 b
        = get_agent_interactions m b) := by
  have hk : hasKey A.agent_id m.agents = true := hA
  have hreg : participantsRegistered m A (Target.many []) = true := by
    simp [participantsRegistered, targetRegistered, registered, hk]
  obtain ⟨e1, _, e3, _, e5⟩ := record_interaction_ok m A (Target.many []) message hwf hreg
  refine ⟨e1, e3, ?_, fun b hb => ?_⟩
  · rw [get_agent_interactions_eq, get_agent_interactions_eq, e5 A.agent_id]
    simp [recordMultiplicity, mkRecord]
  · rw [get_agent_interactions_eq, get_agent_interactions_eq, e5 b.agent_id]
    simp [recordMultiplicity, mkRecord, hb]

theorem empty_receiver_list_ok_witness :
    wf demoManager = true ∧
    registered demoManager alice.agent_id = true ∧
    (record_interaction demoManager alice (Target.many []) "note").2 = none ∧
    get_agent_interactions (record_interaction demoManager alice (Target.many []) "note").1 alice
      = get_agent_interactions demoManager alice ++ [Interaction.oneToMany alice [] "note"] :=
  ⟨by decide, by decide,
    (empty_receiver_list_ok demoManager alice "note" (by decide) (by decide)).1,
    (empty_receiver_list_ok demoManager alice "note" (by decide) (by decide)).2.2.1⟩

/-- Claim C10: re-registering an agent whose identifier is already
registered resets that agent's private log to the empty list (previously
stored records are no longer returned for it), while the global log is
unchanged. -/
theorem reregister_clears_private_log (m : AgentInteractionManager) (a : Agent)
    (h : registered m a.agent_id = true) :
    get_agent_interactions (register_agent m a) a = [] ∧
    get_all_interactions (register_agent m a) = get_all_interactions m :=
  ⟨by simp [get_agent_interactions, register_agent, dictGet_dictInsert_self], rfl⟩

theorem reregister_clears_private_log_witness :
    registered demoManagerWithHistory alice.agent_id = true ∧
    get_agent_interactions demoManagerWithHistory alice ≠ [] ∧
    get_agent_interactions (register_agent demoManagerWithHistory alice) alice = [] ∧
    get_all_interactions (register_agent demoManagerWithHistory alice)
      = get_all_interactions demoManagerWithHistory :=
  ⟨by decide, by decide,
    (reregister_clears_private_log demoManagerWithHistory alice (by decide)).1,
    (reregister_clears_private_log demoManagerWithHistory alice (by decide)).2⟩

end Agentarium
